import Mathlib

/-!
Verification of the calendar-synchronization core of the DarkKnight CRM
repository: the two serverless OAuth/calendar proxy functions
(`google-auth/index.ts` and the `google-calendar` variant), the client
connection hook `useGoogleCalendar.ts`, and the event merge in the
calendar page.  Timestamps are modelled as integer milliseconds since
the epoch; the hosted row store is modelled as a list of Integration
records; network traffic is modelled as the list of provider requests a
handler emits.
-/

namespace DarkKnight

/-! ## Data model: the Integration Record (`user_integrations` table) -/

/-- One row of the `user_integrations` table.  `refresh_token` is an
`Option` because the column is nullable; ISO timestamp strings are
modelled by their numeric value (ms since epoch). -/
structure Integration where
  user_id : String
  provider : String
  access_token : String
  refresh_token : Option String
  token_type : String
  expires_at : Int
  enabled : Bool
  created_at : Int
  updated_at : Int
  deriving DecidableEq

/-- JavaScript truthiness of a nullable string: `null`/`undefined` and
the empty string are falsy. -/
def truthyStr : Option String → Bool
  | some s => decide (s ≠ "")
  | none => false

/-- JavaScript `a || d` for a nullable string `a` and a plain default. -/
def jsOrD (a : Option String) (d : String) : String :=
  match a with
  | some s => if s = "" then d else s
  | none => d

/-- The conflict key of the `user_integrations` table: (user_id, provider). -/
def keyOf (r : Integration) : String × String := (r.user_id, r.provider)

/-- The row filter `.eq('user_id', u).eq('provider', 'google_calendar')`
used by the handlers. -/
def matchesKey (u : String) (r : Integration) : Bool :=
  decide (r.user_id = u) && decide (r.provider = "google_calendar")

/-- The row filter of the `status`/`events` lookups, which additionally
requires `.eq('enabled', true)`. -/
def enabledMatch (u : String) (r : Integration) : Bool :=
  matchesKey u r && r.enabled

/-- PostgREST `.single()`: succeeds with the row when the filter selects
exactly one row, errors (modelled as `none`) on zero or several rows. -/
def singleQuery (db : List Integration) (p : Integration → Bool) : Option Integration :=
  match db.filter p with
  | [x] => some x
  | _ => none

/-- The database invariant backing the `onConflict: 'user_id, provider'`
upsert: all rows have pairwise distinct (user_id, provider) keys. -/
def uniqKeys (db : List Integration) : Prop :=
  db.Pairwise (fun a b => keyOf a ≠ keyOf b)

/-! ## Serverless handlers -/

/-- A request the serverless functions send to the provider. -/
inductive ProviderReq where
  | refreshReq (rtoken : String)
  | calFetch (params : List (String × String)) (accessToken : String)
  deriving DecidableEq

/-- Recognises a token-refresh request. -/
def isRefreshReq : ProviderReq → Bool
  | .refreshReq _ => true
  | _ => false

/-- Recognises a calendar-fetch request. -/
def isCalFetch : ProviderReq → Bool
  | .calFetch _ _ => true
  | _ => false

/-- The provider's answer to a token refresh: the new access token and
the reported TTL in seconds (`expires_in` / `expiresIn`). -/
structure RefreshData where
  access_token : String
  expires_in : Int
  deriving DecidableEq

/-- Outcome of a serverless `events` call: HTTP status, resulting
database, and the provider requests made, in order. -/
structure EventsResult where
  status : Nat
  db : List Integration
  reqs : List ProviderReq
  deriving DecidableEq

/-- The `user_integrations` update both variants run after a successful
refresh: rows matching (user, provider) get the new access token,
the recomputed expiry, and a fresh `updated_at`. -/
def applyRefresh (db : List Integration) (uid : String) (now : Int)
    (rd : RefreshData) (expMs : Int) : List Integration :=
  db.map fun r =>
    if matchesKey uid r then
      { r with access_token := rd.access_token, expires_at := expMs, updated_at := now }
    else r

/-- Milliseconds in 30 days, the default window width of `events`. -/
def thirtyDaysMs : Int := 30 * 24 * 60 * 60 * 1000

/-- Query parameters of the calendar fetch in `google-auth/index.ts`:
caller-supplied or defaulted window, plus `singleEvents` and `orderBy`. -/
def authFetchParams (now : Int) (tmin tmax : Option String) : List (String × String) :=
  [("timeMin", jsOrD tmin (toString now)),
   ("timeMax", jsOrD tmax (toString (now + thirtyDaysMs))),
   ("singleEvents", "true"),
   ("orderBy", "startTime")]

/-- Query parameters of the calendar fetch in the `google-calendar`
variant: same window handling, `singleEvents=true`, and no `orderBy`. -/
def calFetchParams (now : Int) (tmin tmax : Option String) : List (String × String) :=
  [("timeMin", jsOrD tmin (toString now)),
   ("timeMax", jsOrD tmax (toString (now + thirtyDaysMs))),
   ("singleEvents", "true")]

/-- The `events` action of `google-auth/index.ts`.  `refreshResp` is the
provider's answer to a refresh request (`none` = refresh fails),
`fetchOk` whether the calendar fetch succeeds.  Refresh is attempted
when `now >= expires_at` and a (truthy) refresh token is stored. -/
def eventsHandlerAuth (db : List Integration) (uid : String) (now : Int)
    (refreshResp : Option RefreshData) (tmin tmax : Option String)
    (fetchOk : Bool) : EventsResult :=
  match singleQuery db (enabledMatch uid) with
  | none => { status := 400, db := db, reqs := [] }
  | some integ =>
    if decide (integ.expires_at ≤ now) && truthyStr integ.refresh_token then
      match refreshResp with
      | none =>
        { status := 500, db := db, reqs := [.refreshReq (integ.refresh_token.getD "")] }
      | some rd =>
        { status := if fetchOk then 200 else 500,
          db := applyRefresh db uid now rd (now + rd.expires_in * 1000),
          reqs := [.refreshReq (integ.refresh_token.getD ""),
                   .calFetch (authFetchParams now tmin tmax) rd.access_token] }
    else
      { status := if fetchOk then 200 else 500, db := db,
        reqs := [.calFetch (authFetchParams now tmin tmax) integ.access_token] }

/-- `refreshed.expiresIn || 3600` of the `google-calendar` variant:
a missing/zero TTL falls back to 3600 seconds. -/
def calTtl (e : Int) : Int := if e = 0 then 3600 else e

/-- Result of the `getAccessToken` helper of the `google-calendar`
variant: the token (or the thrown error message), the database after a
possible refresh, and the requests made. -/
structure TokenOut where
  res : Except String String
  db : List Integration
  reqs : List ProviderReq

/-- The `getAccessToken` helper of the `google-calendar` variant.  It
throws when no enabled integration row exists, and refreshes only when
`Date.now() > expiresAt` (strict) and a refresh token is stored. -/
def getAccessToken (db : List Integration) (uid : String) (now : Int)
    (refreshResp : Option RefreshData) : TokenOut :=
  match singleQuery db (enabledMatch uid) with
  | none => { res := .error "Google Calendar not connected", db := db, reqs := [] }
  | some integ =>
    if decide (integ.expires_at < now) && truthyStr integ.refresh_token then
      match refreshResp with
      | none =>
        { res := .error "Failed to refresh token", db := db,
          reqs := [.refreshReq (integ.refresh_token.getD "")] }
      | some rd =>
        { res := .ok rd.access_token,
          db := applyRefresh db uid now rd (now + calTtl rd.expires_in * 1000),
          reqs := [.refreshReq (integ.refresh_token.getD "")] }
    else
      { res := .ok integ.access_token, db := db, reqs := [] }

/-- The `events` case of the `google-calendar` variant.  A thrown
"not connected" (or refresh failure) is caught and answered with 500;
otherwise the calendar fetch is made and a non-2xx provider status is
passed through. -/
def eventsHandlerCal (db : List Integration) (uid : String) (now : Int)
    (refreshResp : Option RefreshData) (tmin tmax : Option String)
    (provStatus : Nat) : EventsResult :=
  let t := getAccessToken db uid now refreshResp
  match t.res with
  | .error _ => { status := 500, db := t.db, reqs := t.reqs }
  | .ok tok =>
    { status := if 200 ≤ provStatus ∧ provStatus < 300 then 200 else provStatus,
      db := t.db,
      reqs := t.reqs ++ [.calFetch (calFetchParams now tmin tmax) tok] }

/-- The `status` action (`google-auth/index.ts`): always HTTP 200, with
`connected` true exactly when the `.single()` lookup of an enabled row
succeeds. -/
def statusHandler (db : List Integration) (uid : String) : Nat × Bool :=
  (200, (singleQuery db (enabledMatch uid)).isSome)

/-- The token payload of the OAuth code exchange in the `callback`
action. -/
structure TokenData where
  access_token : String
  refresh_token : Option String
  token_type : String
  expires_in : Int
  deriving DecidableEq

/-- PostgREST upsert with conflict key (user_id, provider): replace the
row with the same key if one exists, otherwise append the new row. -/
def upsert (db : List Integration) (rec : Integration) : List Integration :=
  if db.any (fun r => decide (keyOf r = keyOf rec)) then
    db.map (fun r => if keyOf r = keyOf rec then rec else r)
  else db ++ [rec]

/-- The row written by the `callback` action: enabled, with expiry
`now + expires_in seconds` and fresh created/updated timestamps. -/
def callbackRecord (uid : String) (td : TokenData) (now : Int) : Integration :=
  { user_id := uid, provider := "google_calendar",
    access_token := td.access_token, refresh_token := td.refresh_token,
    token_type := td.token_type,
    expires_at := now + td.expires_in * 1000,
    enabled := true, created_at := now, updated_at := now }

/-- The `callback` action's database effect after a successful code
exchange for the user carried in `state`. -/
def callbackUpsert (db : List Integration) (uid : String) (td : TokenData)
    (now : Int) : List Integration :=
  upsert db (callbackRecord uid td now)

/-- The `disconnect` action's database effect (identical in the
serverless function and in the client hook's direct table update):
rows matching (user, provider) get `enabled := false` and a fresh
`updated_at`; nothing is deleted. -/
def disconnectUpdate (db : List Integration) (uid : String) (now : Int) :
    List Integration :=
  db.map fun r =>
    if matchesKey uid r then { r with enabled := false, updated_at := now } else r

/-! ## Client hook: popup connect flow (`useGoogleCalendar.connect`) -/

/-- Observable state of one popup-driven connect flow: whether the
message listener and the 1-second polling interval are still
registered, whether the popup is open, and how many status re-checks
and toasts have happened. -/
structure FlowState where
  listenerActive : Bool
  intervalActive : Bool
  popupOpen : Bool
  statusChecks : Nat
  successToasts : Nat
  errorToasts : Nat
  deriving DecidableEq

/-- Events the browser can deliver to a pending connect flow: a
cross-window message (with its origin and data), a tick of the 1-second
interval, and the 2-minute timeout. -/
inductive FlowEvent where
  | message (origin : String) (dta : String)
  | tick
  | timeout
  deriving DecidableEq

/-- One event step of the connect flow, transcribed from the
`messageListener`, `checkStatusInterval` and `setTimeout` callbacks of
`connect()`.  `appOrigin` is `window.location.origin`; `connOk` the
result `checkConnection()` reports during this flow.  Note that the
message branch removes the listener and closes the popup but does not
clear the interval (the source has no `clearInterval` there). -/
def flowStep (appOrigin : String) (connOk : Bool) (s : FlowState) :
    FlowEvent → FlowState
  | .message o d =>
    if s.listenerActive then
      if o = appOrigin then
        if d = "google_calendar_connected" then
          { s with
            listenerActive := false, popupOpen := false,
            statusChecks := s.statusChecks + 1,
            successToasts := s.successToasts + (if connOk then 1 else 0) }
        else s
      else s
    else s
  | .tick =>
    if s.intervalActive then
      if s.popupOpen then s
      else
        { s with
          intervalActive := false, listenerActive := false,
          statusChecks := s.statusChecks + 1,
          successToasts := s.successToasts + (if connOk then 1 else 0),
          errorToasts := s.errorToasts + (if connOk then 0 else 1) }
    else s
  | .timeout =>
    { s with intervalActive := false, listenerActive := false, popupOpen := false }

/-- State right after `connect()` has opened the popup and registered
both watchers. -/
def initFlow : FlowState :=
  { listenerActive := true, intervalActive := true, popupOpen := true,
    statusChecks := 0, successToasts := 0, errorToasts := 0 }

/-- Run a connect flow over a list of delivered events. -/
def runFlow (appOrigin : String) (connOk : Bool) (tr : List FlowEvent) : FlowState :=
  tr.foldl (flowStep appOrigin connOk) initFlow

/-! ## Client hook: event shapes and formatting -/

/-- The `start`/`end` object of a provider event: `dateTime` for timed
events, `date` for all-day events. -/
structure GTime where
  dateTime : Option String
  date : Option String
  deriving DecidableEq

/-- A provider calendar event, restricted to the fields the hook's
formatter reads (`endTime` models the source field `end`). -/
structure GoogleCalendarEvent where
  id : String
  summary : String
  description : Option String
  location : Option String
  start : GTime
  endTime : GTime
  organizer : Option String
  attendees : List String
  htmlLink : String
  deriving DecidableEq

/-- A local CRM calendar event row (`calendar_events` table), fields as
read by the local formatter (`endTime` models the nullable `end`). -/
structure CalendarEvent where
  id : String
  title : String
  start : String
  endTime : Option String
  allDay : Bool
  contact_id : Option String
  description : Option String
  location : Option String
  contact : Option String
  deriving DecidableEq

/-- The normalized event shape handed to the calendar renderer
(`EventInput`), covering the fields either formatter writes (`endV`
models the field `end`; `source` distinguishes provider events). -/
structure EventInput where
  id : String
  title : String
  start : Option String
  endV : Option String
  allDay : Bool
  url : Option String
  description : Option String
  location : Option String
  contact : Option String
  contact_id : Option String
  organizer : Option String
  attendees : List String
  source : Option String
  deriving DecidableEq

/-- JavaScript `a || b` on two nullable strings, as in
`event.start.dateTime || event.start.date`. -/
def jsOr (a b : Option String) : Option String :=
  if truthyStr a then a else b

/-- The local hook's `getFormattedEvents` mapping for one CRM event. -/
def formatLocal (e : CalendarEvent) : EventInput :=
  { id := e.id, title := e.title, start := some e.start, endV := e.endTime,
    allDay := e.allDay, url := none,
    description := e.description, location := e.location,
    contact := e.contact, contact_id := e.contact_id,
    organizer := none, attendees := [], source := none }

/-- The Google hook's `getFormattedEvents` mapping for one provider
event: `summary` becomes the title, `dateTime || date` the start/end,
and `allDay` holds exactly when `start.dateTime` is not truthy. -/
def formatGoogle (e : GoogleCalendarEvent) : EventInput :=
  { id := e.id, title := e.summary,
    start := jsOr e.start.dateTime e.start.date,
    endV := jsOr e.endTime.dateTime e.endTime.date,
    allDay := !truthyStr e.start.dateTime,
    url := some e.htmlLink,
    description := e.description, location := e.location,
    contact := none, contact_id := none,
    organizer := e.organizer, attendees := e.attendees,
    source := some "google" }

/-- The calendar page's `getAllEvents`: the locally formatted events
concatenated with the provider events (formatted only when connected). -/
def getAllEvents (connected : Bool) (locals : List CalendarEvent)
    (googles : List GoogleCalendarEvent) : List EventInput :=
  locals.map formatLocal ++ (if connected then googles.map formatGoogle else [])

/-! ## Client hook: CRUD operations with the `isConnected` guard -/

/-- A network request the client hook can issue to the proxy. -/
inductive ClientReq where
  | eventsGet (tmin tmax : Option String)
  | createPost
  | updatePatch (eventId : String)
  | deleteCall (eventId : String)
  deriving DecidableEq

/-- Outcome of a client hook operation: the stored events list after
the call, the requests issued, and the value returned to the caller. -/
structure ClientOut (α : Type) where
  events : List GoogleCalendarEvent
  reqs : List ClientReq
  result : α
  deriving DecidableEq

/-- The hook's `fetchEvents`: returns `[]` at once when not connected;
otherwise issues the request, and on success replaces the stored list. -/
def fetchEventsClient (connected : Bool) (events : List GoogleCalendarEvent)
    (tmin tmax : Option String) (resp : Option (List GoogleCalendarEvent)) :
    ClientOut (List GoogleCalendarEvent) :=
  if connected then
    match resp with
    | some items => { events := items, reqs := [.eventsGet tmin tmax], result := items }
    | none => { events := events, reqs := [.eventsGet tmin tmax], result := [] }
  else { events := events, reqs := [], result := [] }

/-- The hook's `createEvent`: returns `null` at once when not
connected; on success appends the created event to the stored list. -/
def createEventClient (connected : Bool) (events : List GoogleCalendarEvent)
    (resp : Option GoogleCalendarEvent) : ClientOut (Option GoogleCalendarEvent) :=
  if connected then
    match resp with
    | some ev => { events := events ++ [ev], reqs := [.createPost], result := some ev }
    | none => { events := events, reqs := [.createPost], result := none }
  else { events := events, reqs := [], result := none }

/-- The hook's `updateEvent`: returns `null` at once when not
connected; on success replaces the matching stored event. -/
def updateEventClient (connected : Bool) (events : List GoogleCalendarEvent)
    (eventId : String) (resp : Option GoogleCalendarEvent) :
    ClientOut (Option GoogleCalendarEvent) :=
  if connected then
    match resp with
    | some ev =>
      { events := events.map (fun e => if e.id = eventId then ev else e),
        reqs := [.updatePatch eventId], result := some ev }
    | none => { events := events, reqs := [.updatePatch eventId], result := none }
  else { events := events, reqs := [], result := none }

/-- The hook's `deleteEvent`: returns `false` at once when not
connected; on success filters the event out of the stored list. -/
def deleteEventClient (connected : Bool) (events : List GoogleCalendarEvent)
    (eventId : String) (ok : Bool) : ClientOut Bool :=
  if connected then
    if ok then
      { events := events.filter (fun e => decide (e.id ≠ eventId)),
        reqs := [.deleteCall eventId], result := true }
    else { events := events, reqs := [.deleteCall eventId], result := false }
  else { events := events, reqs := [], result := false }

/-! ## Concrete sample data (used to instantiate the theorems) -/

/-- A connected, enabled Integration row with a refresh token and
expiry at t = 1000 ms. -/
def recW : Integration :=
  { user_id := "u1", provider := "google_calendar", access_token := "oldA",
    refresh_token := some "rt", token_type := "Bearer",
    expires_at := 1000, enabled := true, created_at := 0, updated_at := 0 }

/-- The same row soft-disabled. -/
def recDisabled : Integration := { recW with enabled := false }

/-- A one-row database holding `recW`. -/
def dbW : List Integration := [recW]

/-- A sample local CRM event. -/
def localW : CalendarEvent :=
  { id := "l1", title := "Meet", start := "2025-01-01", endTime := none,
    allDay := true, contact_id := none, description := none,
    location := none, contact := none }

/-- A sample timed provider event. -/
def googleW : GoogleCalendarEvent :=
  { id := "g1", summary := "Sync", description := none, location := none,
    start := { dateTime := some "2025-01-02T10:00:00Z", date := none },
    endTime := { dateTime := some "2025-01-02T11:00:00Z", date := none },
    organizer := none, attendees := [], htmlLink := "https://cal.example/g1" }

/-- A sample successful refresh answer. -/
def rdW : RefreshData := { access_token := "newA", expires_in := 3600 }

/-- A sample successful code-exchange answer. -/
def tdW : TokenData :=
  { access_token := "a1", refresh_token := some "r1", token_type := "Bearer",
    expires_in := 3600 }

/-! ## Helper lemmas on queries and keys -/

/-- A successful `.single()` means the filter selected exactly that row. -/
theorem singleQuery_eq_some {db : List Integration} {p : Integration → Bool}
    {x : Integration} (h : singleQuery db p = some x) : db.filter p = [x] := by
  unfold singleQuery at h
  cases hf : db.filter p with
  | nil => rw [hf] at h; simp at h
  | cons a t =>
    cases t with
    | nil => rw [hf] at h; simp at h; rw [h]
    | cons b t2 => rw [hf] at h; simp at h

/-- Conversely, a one-row filter result makes `.single()` succeed. -/
theorem singleQuery_of_filter {db : List Integration} {p : Integration → Bool}
    {x : Integration} (h : db.filter p = [x]) : singleQuery db p = some x := by
  unfold singleQuery; rw [h]

/-- The enabled-row filter pins the row key to (u, "google_calendar"). -/
theorem keyOf_of_enabledMatch {u : String} {r : Integration}
    (h : enabledMatch u r = true) : keyOf r = (u, "google_calendar") := by
  rw [enabledMatch, Bool.and_eq_true, matchesKey, Bool.and_eq_true] at h
  obtain ⟨⟨h1, h2⟩, _⟩ := h
  simp only [keyOf, Prod.mk.injEq]
  exact ⟨of_decide_eq_true h1, of_decide_eq_true h2⟩

/-- Under the key-uniqueness invariant, a predicate that pins the key
selects exactly the one row it holds of. -/
theorem uniq_filter_eq_single {k : String × String} {p : Integration → Bool}
    (hp : ∀ r, p r = true → keyOf r = k) :
    ∀ {db : List Integration}, uniqKeys db → ∀ {x : Integration}, x ∈ db →
      p x = true → db.filter p = [x] := by
  intro db
  induction db with
  | nil => intro _ x hx; cases hx
  | cons a l ih =>
    intro hu x hx hpx
    rw [uniqKeys, List.pairwise_cons] at hu
    by_cases hpa : p a = true
    · have hfl : l.filter p = [] := by
        rw [List.filter_eq_nil_iff]
        intro b hb hpb
        exact hu.1 b hb (by rw [hp a hpa, hp b hpb])
      have hxa : x = a := by
        rcases List.mem_cons.mp hx with h | h
        · exact h
        · exact absurd (by rw [hp a hpa, hp x hpx] : keyOf a = keyOf x) (hu.1 x h)
      rw [List.filter_cons_of_pos hpa, hfl, hxa]
    · have hxl : x ∈ l := by
        rcases List.mem_cons.mp hx with h | h
        · exact absurd (h ▸ hpx) hpa
        · exact h
      rw [List.filter_cons_of_neg hpa]
      exact ih hu.2 hxl hpx

/-- If every row for the key is disabled, the enabled lookup is empty. -/
theorem filter_enabled_eq_nil {db : List Integration} {u : String}
    (h : ∀ r ∈ db, matchesKey u r = true → r.enabled = false) :
    db.filter (enabledMatch u) = [] := by
  rw [List.filter_eq_nil_iff]
  intro r hr hpr
  rw [enabledMatch, Bool.and_eq_true] at hpr
  rw [h r hr hpr.1] at hpr
  exact Bool.false_ne_true hpr.2

/-! ## Claim theorems -/

/-- Claim C10: each of the client hook's `fetchEvents`, `createEvent`,
`updateEvent` and `deleteEvent`, called while `isConnected` is false,
returns immediately (the empty list, null, null, false respectively),
issues no network request, and leaves the stored events list
unchanged. -/
theorem client_guard_no_network (events : List GoogleCalendarEvent)
    (tmin tmax : Option String) (respL : Option (List GoogleCalendarEvent))
    (respE : Option GoogleCalendarEvent) (eid : String) (ok : Bool) :
    fetchEventsClient false events tmin tmax respL
      = { events := events, reqs := [], result := [] } ∧
    createEventClient false events respE
      = { events := events, reqs := [], result := none } ∧
    updateEventClient false events eid respE
      = { events := events, reqs := [], result := none } ∧
    deleteEventClient false events eid ok
      = { events := events, reqs := [], result := false } := by
  refine ⟨rfl, rfl, rfl, rfl⟩

/-- Claim C2 (code bug): when the success message from the app's own
origin arrives before the polling interval ticks, the message listener
removes itself and closes the popup but does not clear the interval, so
the next tick observes the closed popup and re-runs the status check
and the success toast: the flow performs two status re-checks and shows
two success toasts, not one. -/
theorem connect_double_check_and_toast :
    (runFlow "https://app.example" true
      [FlowEvent.message "https://app.example" "google_calendar_connected",
       FlowEvent.tick]).statusChecks = 2 ∧
    (runFlow "https://app.example" true
      [FlowEvent.message "https://app.example" "google_calendar_connected",
       FlowEvent.tick]).successToasts = 2 := by
  exact ⟨rfl, rfl⟩

/-- Claim C6: a message whose origin differs from the application's own
origin is dropped by the popup message listener with no effect: the
step is the identity on the flow state, and a run containing such a
message ends in the same state as the run without it. -/
theorem foreign_origin_message_ignored (appOrigin : String) (connOk : Bool)
    (o d : String) (t1 t2 : List FlowEvent) (h : o ≠ appOrigin) :
    (∀ s : FlowState, flowStep appOrigin connOk s (FlowEvent.message o d) = s) ∧
    runFlow appOrigin connOk (t1 ++ FlowEvent.message o d :: t2)
      = runFlow appOrigin connOk (t1 ++ t2) := by
  have hstep : ∀ s : FlowState,
      flowStep appOrigin connOk s (FlowEvent.message o d) = s := by
    intro s
    cases hl : s.listenerActive <;> simp [flowStep, hl, h]
  refine ⟨hstep, ?_⟩
  unfold runFlow
  rw [List.foldl_append, List.foldl_append, List.foldl_cons, hstep]

/-- Claim C6 witness: a run with a forged message from a foreign origin
inserted ends in the same state as the run without it. -/
theorem foreign_origin_message_ignored_witness :
    runFlow "https://app.example" true
      ([FlowEvent.tick] ++ FlowEvent.message "https://evil.example" "google_calendar_connected" :: [FlowEvent.tick])
      = runFlow "https://app.example" true ([FlowEvent.tick] ++ [FlowEvent.tick]) :=
  (foreign_origin_message_ignored "https://app.example" true
    "https://evil.example" "google_calendar_connected" [FlowEvent.tick] [FlowEvent.tick]
    (by decide)).2

/-- Claim C4: while connected, the unified view is the concatenation of
the independently mapped local and provider lists, with exactly N+M
entries, each local event under the local field mapping and each
provider event under the provider mapping (summary as title,
dateTime-or-date as start/end, allDay exactly when no dateTime); while
not connected it is exactly the mapped local list. -/
theorem merge_preserves_sources (locals : List CalendarEvent)
    (googles : List GoogleCalendarEvent) :
    (getAllEvents true locals googles).length = locals.length + googles.length ∧
    getAllEvents true locals googles
      = locals.map formatLocal ++ googles.map formatGoogle ∧
    getAllEvents false locals googles = locals.map formatLocal ∧
    (∀ l ∈ locals,
      (formatLocal l).title = l.title ∧ (formatLocal l).start = some l.start ∧
      (formatLocal l).endV = l.endTime ∧ (formatLocal l).allDay = l.allDay ∧
      (formatLocal l).source = none) ∧
    (∀ g ∈ googles,
      (formatGoogle g).title = g.summary ∧
      (formatGoogle g).start = jsOr g.start.dateTime g.start.date ∧
      (formatGoogle g).endV = jsOr g.endTime.dateTime g.endTime.date ∧
      (formatGoogle g).source = some "google" ∧
      (g.start.dateTime ≠ some "" →
        ((formatGoogle g).allDay = true ↔ g.start.dateTime = none))) := by
  refine ⟨?_, rfl, by simp [getAllEvents], ?_, ?_⟩
  · simp [getAllEvents]
  · intro l _
    exact ⟨rfl, rfl, rfl, rfl, rfl⟩
  · intro g _
    refine ⟨rfl, rfl, rfl, rfl, ?_⟩
    intro hne
    cases hdt : g.start.dateTime with
    | none => simp [formatGoogle, truthyStr, hdt]
    | some s =>
      have hs : s ≠ "" := by
        intro he; exact hne (by rw [hdt, he])
      simp [formatGoogle, truthyStr, hdt, hs]

/-- Claim C4 witness: one local and one timed provider event merge into
exactly two entries, keeping each source's mapping. -/
theorem merge_preserves_sources_witness :
    (getAllEvents true [localW] [googleW]).length = 1 + 1 ∧
    getAllEvents false [localW] [googleW] = [formatLocal localW] :=
  ⟨(merge_preserves_sources [localW] [googleW]).1,
   (merge_preserves_sources [localW] [googleW]).2.2.1⟩

/-- Claim C3 (amended): with an integration row for the caller that has
`enabled=false`, neither serverless `events` variant sends any provider
request and neither touches the database; the `google-auth` variant
answers 400 "not connected", while the `google-calendar` variant's
caught "not connected" error is answered with status 500, not 400. -/
theorem events_disabled_no_provider_call (db : List Integration) (uid : String)
    (now : Int) (rr : Option RefreshData) (tmin tmax : Option String)
    (fetchOk : Bool) (pst : Nat)
    (h : ∀ r ∈ db, matchesKey uid r = true → r.enabled = false) :
    eventsHandlerAuth db uid now rr tmin tmax fetchOk
      = { status := 400, db := db, reqs := [] } ∧
    (eventsHandlerCal db uid now rr tmin tmax pst).status = 500 ∧
    (eventsHandlerCal db uid now rr tmin tmax pst).reqs = [] ∧
    (eventsHandlerCal db uid now rr tmin tmax pst).db = db := by
  have hq : singleQuery db (enabledMatch uid) = none := by
    unfold singleQuery
    rw [filter_enabled_eq_nil h]
  refine ⟨?_, ?_, ?_, ?_⟩ <;>
    simp [eventsHandlerAuth, eventsHandlerCal, getAccessToken, hq]

/-- Claim C3 counterexample: at a concrete disabled row, the
`google-calendar` variant's `events` action answers 500, not the 400
the claim requires (though it does make no provider request). -/
theorem events_disabled_cal_answers_500 :
    recDisabled.enabled = false ∧
    (eventsHandlerCal [recDisabled] "u1" 0 none none none 200).status = 500 ∧
    ¬ (eventsHandlerCal [recDisabled] "u1" 0 none none none 200).status = 400 ∧
    (eventsHandlerCal [recDisabled] "u1" 0 none none none 200).reqs = [] := by
  refine ⟨rfl, rfl, by decide, rfl⟩

/-- Claim C3 witness: the amended statement at the concrete disabled
row: `google-auth` answers 400 with no request, `google-calendar`
answers 500 with no request. -/
theorem events_disabled_no_provider_call_witness :
    eventsHandlerAuth [recDisabled] "u1" 0 none none none true
      = { status := 400, db := [recDisabled], reqs := [] } ∧
    (eventsHandlerCal [recDisabled] "u1" 0 none none none 200).status = 500 :=
  ⟨(events_disabled_no_provider_call [recDisabled] "u1" 0 none none none true 200
      (by decide)).1,
   (events_disabled_no_provider_call [recDisabled] "u1" 0 none none none true 200
      (by decide)).2.1⟩

/-- Claim C5 (amended): with a valid enabled integration, both `events`
variants make exactly one calendar fetch whose query uses the
caller-supplied timeMin/timeMax when given (non-empty) and otherwise
defaults the window to [now, now + 30 days], and both request
`singleEvents=true`; only the `google-auth` variant additionally
requests `orderBy=startTime` — the `google-calendar` variant's query
has no orderBy parameter. -/
theorem events_fetch_query (db : List Integration) (uid : String) (now : Int)
    (integ : Integration) (rd : RefreshData) (tmin tmax : Option String)
    (fetchOk : Bool) (pst : Nat)
    (hq : singleQuery db (enabledMatch uid) = some integ) :
    (∃ tok, (eventsHandlerAuth db uid now (some rd) tmin tmax fetchOk).reqs.filter isCalFetch
      = [ProviderReq.calFetch (authFetchParams now tmin tmax) tok]) ∧
    (∃ tok, (eventsHandlerCal db uid now (some rd) tmin tmax pst).reqs.filter isCalFetch
      = [ProviderReq.calFetch (calFetchParams now tmin tmax) tok]) ∧
    ("singleEvents", "true") ∈ authFetchParams now tmin tmax ∧
    ("orderBy", "startTime") ∈ authFetchParams now tmin tmax ∧
    ("singleEvents", "true") ∈ calFetchParams now tmin tmax ∧
    ("orderBy", "startTime") ∉ calFetchParams now tmin tmax ∧
    (tmin = none →
      ("timeMin", toString now) ∈ authFetchParams now tmin tmax ∧
      ("timeMin", toString now) ∈ calFetchParams now tmin tmax) ∧
    (tmax = none →
      ("timeMax", toString (now + thirtyDaysMs)) ∈ authFetchParams now tmin tmax ∧
      ("timeMax", toString (now + thirtyDaysMs)) ∈ calFetchParams now tmin tmax) ∧
    (∀ s, tmin = some s → s ≠ "" →
      ("timeMin", s) ∈ authFetchParams now tmin tmax ∧
      ("timeMin", s) ∈ calFetchParams now tmin tmax) ∧
    (∀ s, tmax = some s → s ≠ "" →
      ("timeMax", s) ∈ authFetchParams now tmin tmax ∧
      ("timeMax", s) ∈ calFetchParams now tmin tmax) := by
  refine ⟨?_, ?_, ?_, ?_, ?_, ?_, ?_, ?_, ?_, ?_⟩
  · by_cases hc : (decide (integ.expires_at ≤ now) && truthyStr integ.refresh_token) = true
    · exact ⟨rd.access_token, by simp [eventsHandlerAuth, hq, hc, isCalFetch]⟩
    · exact ⟨integ.access_token, by simp [eventsHandlerAuth, hq, hc, isCalFetch]⟩
  · by_cases hc : (decide (integ.expires_at < now) && truthyStr integ.refresh_token) = true
    · exact ⟨rd.access_token, by simp [eventsHandlerCal, getAccessToken, hq, hc, isCalFetch]⟩
    · exact ⟨integ.access_token, by simp [eventsHandlerCal, getAccessToken, hq, hc, isCalFetch]⟩
  · exact List.mem_cons_of_mem _ (List.mem_cons_of_mem _ (List.mem_cons_self _ _))
  · exact List.mem_cons_of_mem _ (List.mem_cons_of_mem _ (List.mem_cons_of_mem _
      (List.mem_cons_self _ _)))
  · exact List.mem_cons_of_mem _ (List.mem_cons_of_mem _ (List.mem_cons_self _ _))
  · intro hmem
    unfold calFetchParams at hmem
    rcases List.mem_cons.mp hmem with h | hmem
    · have h1 : ("orderBy" : String) = "timeMin" := congrArg Prod.fst h
      exact absurd h1 (by decide)
    rcases List.mem_cons.mp hmem with h | hmem
    · have h1 : ("orderBy" : String) = "timeMax" := congrArg Prod.fst h
      exact absurd h1 (by decide)
    rcases List.mem_cons.mp hmem with h | hmem
    · have h1 : ("orderBy" : String) = "singleEvents" := congrArg Prod.fst h
      exact absurd h1 (by decide)
    · cases hmem
  · intro hn
    subst hn
    exact ⟨List.mem_cons_self _ _, List.mem_cons_self _ _⟩
  · intro hn
    subst hn
    refine ⟨List.mem_cons_of_mem _ (List.mem_cons_self _ _),
      List.mem_cons_of_mem _ (List.mem_cons_self _ _)⟩
  · intro s hs hne
    subst hs
    have hv : jsOrD (some s) (toString now) = s := by simp [jsOrD, hne]
    constructor
    · unfold authFetchParams; rw [hv]; exact List.mem_cons_self _ _
    · unfold calFetchParams; rw [hv]; exact List.mem_cons_self _ _
  · intro s hs hne
    subst hs
    have hv : jsOrD (some s) (toString (now + thirtyDaysMs)) = s := by simp [jsOrD, hne]
    constructor
    · unfold authFetchParams; rw [hv]
      exact List.mem_cons_of_mem _ (List.mem_cons_self _ _)
    · unfold calFetchParams; rw [hv]
      exact List.mem_cons_of_mem _ (List.mem_cons_self _ _)

/-- Claim C5 counterexample: at a concrete enabled, unexpired row, the
`google-calendar` variant's single calendar fetch carries exactly
timeMin, timeMax and singleEvents — its query has no
`orderBy=startTime` parameter, contradicting the claim's ordering
requirement for that variant. -/
theorem events_cal_fetch_has_no_orderby :
    (eventsHandlerCal [recW] "u1" 0 none none none 200).reqs
      = [ProviderReq.calFetch
          [("timeMin", "0"), ("timeMax", "2592000000"), ("singleEvents", "true")]
          "oldA"] ∧
    ("orderBy", "startTime")
      ∉ [(("timeMin" : String), ("0" : String)), ("timeMax", "2592000000"),
         ("singleEvents", "true")] := by
  refine ⟨rfl, by decide⟩

/-- Claim C5 witness: the amended statement instantiated at the
concrete enabled row with no caller-supplied window. -/
theorem events_fetch_query_witness :
    singleQuery dbW (enabledMatch "u1") = some recW ∧
    ("orderBy", "startTime") ∈ authFetchParams 0 none none ∧
    ("orderBy", "startTime") ∉ calFetchParams 0 none none :=
  ⟨by decide,
   (events_fetch_query dbW "u1" 0 recW rdW none none true 200 (by decide)).2.2.2.1,
   (events_fetch_query dbW "u1" 0 recW rdW none none true 200 (by decide)).2.2.2.2.2.1⟩

/-- The refresh-time row update leaves the (user, provider) filter
outcome unchanged. -/
theorem matchesKey_refresh_update (uid : String) (now expMs : Int)
    (rd : RefreshData) (r : Integration) :
    matchesKey uid (if matchesKey uid r then
        { r with
          access_token := rd.access_token, expires_at := expMs,
          updated_at := now }
      else r) = matchesKey uid r := by
  by_cases h : matchesKey uid r = true
  · rw [if_pos h]; rfl
  · rw [if_neg h]

/-- Rows matched by the refresh-time update carry the new token and the
recomputed expiry; and the matched row survives the update. -/
theorem applyRefresh_fields (db : List Integration) (uid : String)
    (now expMs : Int) (rd : RefreshData) :
    (∀ r ∈ applyRefresh db uid now rd expMs, matchesKey uid r = true →
      r.access_token = rd.access_token ∧ r.expires_at = expMs) ∧
    (∀ r0 ∈ db, matchesKey uid r0 = true →
      ∃ r ∈ applyRefresh db uid now rd expMs, matchesKey uid r = true) := by
  constructor
  · intro r hr hm
    rcases List.mem_map.mp hr with ⟨r0, hr0, hre⟩
    rw [← hre] at hm
    rw [matchesKey_refresh_update] at hm
    rw [← hre, if_pos hm]
    exact ⟨rfl, rfl⟩
  · intro r0 hr0 hm
    refine ⟨_, List.mem_map.mpr ⟨r0, hr0, rfl⟩, ?_⟩
    rw [matchesKey_refresh_update]
    exact hm

/-- Claim C1 (amended): for an enabled integration whose stored refresh
token is truthy and whose expiry is strictly before the current time,
and a provider refresh reporting a nonnegative TTL, both `events`
variants perform exactly one token-refresh request followed by the
single calendar fetch (which uses the refreshed access token), and both
persist the new access token together with a recomputed expiry —
`now + TTL` for `google-auth`, `now + (TTL or 3600 when zero)` for
`google-calendar` — which is strictly later than the previous expiry.
(The unamended claim's "at or before the current time" fails at the
boundary `expiry = now` for the `google-calendar` variant, whose
refresh condition is strict.) -/
theorem events_expired_refresh (db : List Integration) (uid : String)
    (now : Int) (integ : Integration) (rd : RefreshData)
    (tmin tmax : Option String) (fetchOk : Bool) (pst : Nat)
    (hq : singleQuery db (enabledMatch uid) = some integ)
    (hexp : integ.expires_at < now)
    (hrt : truthyStr integ.refresh_token = true)
    (httl : 0 ≤ rd.expires_in) :
    (eventsHandlerAuth db uid now (some rd) tmin tmax fetchOk).reqs
      = [ProviderReq.refreshReq (integ.refresh_token.getD ""),
         ProviderReq.calFetch (authFetchParams now tmin tmax) rd.access_token] ∧
    (eventsHandlerCal db uid now (some rd) tmin tmax pst).reqs
      = [ProviderReq.refreshReq (integ.refresh_token.getD ""),
         ProviderReq.calFetch (calFetchParams now tmin tmax) rd.access_token] ∧
    (∀ r ∈ (eventsHandlerAuth db uid now (some rd) tmin tmax fetchOk).db,
      matchesKey uid r = true →
        r.access_token = rd.access_token ∧
        r.expires_at = now + rd.expires_in * 1000 ∧
        integ.expires_at < r.expires_at) ∧
    (∃ r ∈ (eventsHandlerAuth db uid now (some rd) tmin tmax fetchOk).db,
      matchesKey uid r = true) ∧
    (∀ r ∈ (eventsHandlerCal db uid now (some rd) tmin tmax pst).db,
      matchesKey uid r = true →
        r.access_token = rd.access_token ∧
        r.expires_at = now + calTtl rd.expires_in * 1000 ∧
        integ.expires_at < r.expires_at) ∧
    (∃ r ∈ (eventsHandlerCal db uid now (some rd) tmin tmax pst).db,
      matchesKey uid r = true) := by
  have h1 : decide (integ.expires_at ≤ now) = true :=
    decide_eq_true (le_of_lt hexp)
  have h2 : decide (integ.expires_at < now) = true := decide_eq_true hexp
  have hcA : (decide (integ.expires_at ≤ now) && truthyStr integ.refresh_token)
      = true := by rw [h1, hrt]; rfl
  have hcC : (decide (integ.expires_at < now) && truthyStr integ.refresh_token)
      = true := by rw [h2, hrt]; rfl
  have hRA : eventsHandlerAuth db uid now (some rd) tmin tmax fetchOk
      = { status := if fetchOk then 200 else 500,
          db := applyRefresh db uid now rd (now + rd.expires_in * 1000),
          reqs := [ProviderReq.refreshReq (integ.refresh_token.getD ""),
                   ProviderReq.calFetch (authFetchParams now tmin tmax)
                     rd.access_token] } := by
    simp [eventsHandlerAuth, hq, hcA]
  have hGA : getAccessToken db uid now (some rd)
      = { res := Except.ok rd.access_token,
          db := applyRefresh db uid now rd (now + calTtl rd.expires_in * 1000),
          reqs := [ProviderReq.refreshReq (integ.refresh_token.getD "")] } := by
    simp [getAccessToken, hq, hcC]
  have hRC : eventsHandlerCal db uid now (some rd) tmin tmax pst
      = { status := if 200 ≤ pst ∧ pst < 300 then 200 else pst,
          db := applyRefresh db uid now rd (now + calTtl rd.expires_in * 1000),
          reqs := [ProviderReq.refreshReq (integ.refresh_token.getD ""),
                   ProviderReq.calFetch (calFetchParams now tmin tmax)
                     rd.access_token] } := by
    simp [eventsHandlerCal, hGA]
  have hmemInteg : integ ∈ db ∧ matchesKey uid integ = true := by
    have hf := singleQuery_eq_some hq
    have : integ ∈ db.filter (enabledMatch uid) := by rw [hf]; exact List.mem_cons_self _ _
    have hm := List.mem_filter.mp this
    refine ⟨hm.1, ?_⟩
    have := hm.2
    rw [enabledMatch, Bool.and_eq_true] at this
    exact this.1
  have httlC : 0 ≤ calTtl rd.expires_in := by
    unfold calTtl; split <;> omega
  refine ⟨by rw [hRA], by rw [hRC], ?_, ?_, ?_, ?_⟩
  · rw [hRA]
    intro r hr hm
    have hfld := (applyRefresh_fields db uid now (now + rd.expires_in * 1000) rd).1 r hr hm
    refine ⟨hfld.1, hfld.2, ?_⟩
    rw [hfld.2]
    have : (0 : Int) ≤ rd.expires_in * 1000 := by positivity
    omega
  · rw [hRA]
    exact (applyRefresh_fields db uid now (now + rd.expires_in * 1000) rd).2
      integ hmemInteg.1 hmemInteg.2
  · rw [hRC]
    intro r hr hm
    have hfld := (applyRefresh_fields db uid now
      (now + calTtl rd.expires_in * 1000) rd).1 r hr hm
    refine ⟨hfld.1, hfld.2, ?_⟩
    rw [hfld.2]
    have : (0 : Int) ≤ calTtl rd.expires_in * 1000 := by positivity
    omega
  · rw [hRC]
    exact (applyRefresh_fields db uid now (now + calTtl rd.expires_in * 1000) rd).2
      integ hmemInteg.1 hmemInteg.2

/-- Claim C1 counterexample: at the boundary where the stored expiry
equals the current time, the enabled row has a refresh token and
`expires_at ≤ now`, yet the `google-calendar` variant's `events` action
performs zero token-refresh requests (its refresh condition is strict),
refuting "exactly one token-refresh request" as stated. -/
theorem events_cal_boundary_no_refresh :
    recW.enabled = true ∧
    truthyStr recW.refresh_token = true ∧
    recW.expires_at ≤ 1000 ∧
    ((eventsHandlerCal dbW "u1" 1000 (some rdW) none none 200).reqs.countP
      isRefreshReq) = 0 := by
  refine ⟨rfl, rfl, by decide, rfl⟩

/-- Claim C1 witness: the amended statement at a concrete expired row
(expiry 1000 < now 2000): one refresh then one fetch with the new
token. -/
theorem events_expired_refresh_witness :
    singleQuery dbW (enabledMatch "u1") = some recW ∧
    recW.expires_at < 2000 ∧
    truthyStr recW.refresh_token = true ∧
    (0 : Int) ≤ rdW.expires_in ∧
    (eventsHandlerAuth dbW "u1" 2000 (some rdW) none none true).reqs
      = [ProviderReq.refreshReq (recW.refresh_token.getD ""),
         ProviderReq.calFetch (authFetchParams 2000 none none)
           rdW.access_token] :=
  ⟨by decide, by decide, by decide, by decide,
   (events_expired_refresh dbW "u1" 2000 recW rdW none none true 200
     (by decide) (by decide) (by decide) (by decide)).1⟩

/-- The conflict-keyed upsert preserves the key-uniqueness invariant. -/
theorem upsert_uniq {db : List Integration} (rec : Integration)
    (hu : uniqKeys db) : uniqKeys (upsert db rec) := by
  unfold upsert
  by_cases h : db.any (fun r => decide (keyOf r = keyOf rec)) = true
  · rw [if_pos h]
    unfold uniqKeys at hu ⊢
    rw [List.pairwise_map]
    refine List.Pairwise.imp ?_ hu
    intro a b hab
    have ha : keyOf (if keyOf a = keyOf rec then rec else a) = keyOf a := by
      by_cases hka : keyOf a = keyOf rec
      · rw [if_pos hka, hka]
      · rw [if_neg hka]
    have hb : keyOf (if keyOf b = keyOf rec then rec else b) = keyOf b := by
      by_cases hkb : keyOf b = keyOf rec
      · rw [if_pos hkb, hkb]
      · rw [if_neg hkb]
    rw [ha, hb]; exact hab
  · rw [if_neg h]
    unfold uniqKeys at hu ⊢
    rw [List.pairwise_append]
    refine ⟨hu, List.pairwise_singleton _ _, ?_⟩
    intro a ha b hb
    have hb2 : b = rec := by simpa using hb
    subst hb2
    intro hk
    apply h
    rw [List.any_eq_true]
    exact ⟨a, ha, decide_eq_true hk⟩

/-- The upserted row is present after the upsert. -/
theorem mem_upsert_self (db : List Integration) (rec : Integration) :
    rec ∈ upsert db rec := by
  unfold upsert
  by_cases h : db.any (fun r => decide (keyOf r = keyOf rec)) = true
  · rw [if_pos h]
    rw [List.any_eq_true] at h
    obtain ⟨r0, hr0, hk⟩ := h
    exact List.mem_map.mpr ⟨r0, hr0, by rw [if_pos (of_decide_eq_true hk)]⟩
  · rw [if_neg h]
    exact List.mem_append_right _ (List.mem_cons_self _ _)

/-- Claim C7: a successful OAuth callback for user U upserts the
Integration Record on the (user_id, provider) conflict key with
enabled=true and expiry now + provider-reported TTL; under the
key-uniqueness invariant the result again satisfies it, at most one
enabled record exists for (U, "google_calendar") — indeed the enabled
lookup selects exactly the upserted row — and a subsequent `status`
call answers 200 with connected=true. -/
theorem callback_upsert_connected (db : List Integration) (uid : String)
    (td : TokenData) (now : Int) (hu : uniqKeys db) :
    uniqKeys (callbackUpsert db uid td now) ∧
    (callbackUpsert db uid td now).filter (enabledMatch uid)
      = [callbackRecord uid td now] ∧
    ((callbackUpsert db uid td now).filter (enabledMatch uid)).length ≤ 1 ∧
    (callbackRecord uid td now).enabled = true ∧
    (callbackRecord uid td now).expires_at = now + td.expires_in * 1000 ∧
    statusHandler (callbackUpsert db uid td now) uid = (200, true) := by
  have hu2 : uniqKeys (callbackUpsert db uid td now) := upsert_uniq _ hu
  have hen : enabledMatch uid (callbackRecord uid td now) = true := by
    simp [enabledMatch, matchesKey, callbackRecord]
  have hfil : (callbackUpsert db uid td now).filter (enabledMatch uid)
      = [callbackRecord uid td now] :=
    uniq_filter_eq_single (k := (uid, "google_calendar"))
      (fun _ hr => keyOf_of_enabledMatch hr) hu2 (mem_upsert_self db _) hen
  refine ⟨hu2, hfil, by rw [hfil]; exact Nat.le_refl 1, rfl, rfl, ?_⟩
  unfold statusHandler
  rw [singleQuery_of_filter hfil]
  rfl

/-- Claim C7 witness: upserting a callback row into the concrete
one-row database keeps keys unique and makes `status` report
connected=true. -/
theorem callback_upsert_connected_witness :
    uniqKeys dbW ∧
    statusHandler (callbackUpsert dbW "u2" tdW 5) "u2" = (200, true) :=
  ⟨by unfold uniqKeys dbW; simp,
   (callback_upsert_connected dbW "u2" tdW 5 (by unfold uniqKeys dbW; simp)).2.2.2.2.2⟩

/-- Claim C8: disconnecting never deletes the Integration Record: the
table keeps the same length, every row keeps its user, provider,
tokens, expiry and creation time; rows matching (user,
"google_calendar") get exactly enabled=false with a refreshed
updated_at, all other rows are untouched, and a subsequent `status`
call answers 200 with connected=false. -/
theorem disconnect_soft_delete (db : List Integration) (uid : String)
    (now : Int) :
    (disconnectUpdate db uid now).length = db.length ∧
    List.Forall₂ (fun r r' =>
        r'.user_id = r.user_id ∧ r'.provider = r.provider ∧
        r'.access_token = r.access_token ∧
        r'.refresh_token = r.refresh_token ∧
        r'.token_type = r.token_type ∧ r'.expires_at = r.expires_at ∧
        r'.created_at = r.created_at ∧
        (matchesKey uid r = true → r'.enabled = false ∧ r'.updated_at = now) ∧
        (matchesKey uid r = false → r' = r))
      db (disconnectUpdate db uid now) ∧
    statusHandler (disconnectUpdate db uid now) uid = (200, false) := by
  refine ⟨by simp [disconnectUpdate], ?_, ?_⟩
  · unfold disconnectUpdate
    rw [List.forall₂_map_right_iff]
    rw [List.forall₂_same]
    intro r _
    by_cases hm : matchesKey uid r = true
    · rw [if_pos hm]
      refine ⟨rfl, rfl, rfl, rfl, rfl, rfl, rfl, fun _ => ⟨rfl, rfl⟩, ?_⟩
      intro hf
      rw [hm] at hf
      cases hf
    · rw [if_neg hm]
      refine ⟨rfl, rfl, rfl, rfl, rfl, rfl, rfl, ?_, ?_⟩
      · intro ht
        exact absurd ht hm
      · intro _
        rfl
  · have hq : singleQuery (disconnectUpdate db uid now) (enabledMatch uid) = none := by
      unfold singleQuery
      have hfil : (disconnectUpdate db uid now).filter (enabledMatch uid) = [] := by
        rw [List.filter_eq_nil_iff]
        intro r' hr'
        rcases List.mem_map.mp hr' with ⟨r0, _, hre⟩
        by_cases h0 : matchesKey uid r0 = true
        · rw [← hre, if_pos h0]
          simp [enabledMatch]
        · rw [← hre, if_neg h0]
          intro he
          rw [enabledMatch, Bool.and_eq_true] at he
          exact h0 he.1
      rw [hfil]
    unfold statusHandler
    rw [hq]
    rfl

/-- Claim C8 witness: disconnecting the concrete one-row database keeps
the row count and makes `status` report connected=false. -/
theorem disconnect_soft_delete_witness :
    (disconnectUpdate dbW "u1" 7).length = dbW.length ∧
    statusHandler (disconnectUpdate dbW "u1" 7) "u1" = (200, false) :=
  ⟨(disconnect_soft_delete dbW "u1" 7).1, (disconnect_soft_delete dbW "u1" 7).2.2⟩

/-- Claim C9: under the key-uniqueness invariant, the `status` action
answers HTTP 200 with a boolean connected that is true exactly when an
Integration Record for (caller, "google_calendar") exists with
enabled=true; with no such record it answers connected=false rather
than an error status. -/
theorem status_connected_iff (db : List Integration) (u : String)
    (hu : uniqKeys db) :
    (statusHandler db u).1 = 200 ∧
    ((statusHandler db u).2 = true ↔
      ∃ r ∈ db, matchesKey u r = true ∧ r.enabled = true) := by
  refine ⟨rfl, ?_⟩
  constructor
  · intro h
    have h2 : (singleQuery db (enabledMatch u)).isSome = true := h
    cases hx : singleQuery db (enabledMatch u) with
    | none => rw [hx] at h2; cases h2
    | some x =>
      have hf := singleQuery_eq_some hx
      have hxm : x ∈ db.filter (enabledMatch u) := by
        rw [hf]; exact List.mem_cons_self _ _
      have hm := List.mem_filter.mp hxm
      have he := hm.2
      rw [enabledMatch, Bool.and_eq_true] at he
      exact ⟨x, hm.1, he.1, he.2⟩
  · rintro ⟨r, hr, hm, he⟩
    have hen : enabledMatch u r = true := by
      rw [enabledMatch, hm, he]; rfl
    have hfil := uniq_filter_eq_single (k := (u, "google_calendar"))
      (fun _ h0 => keyOf_of_enabledMatch h0) hu hr hen
    show (singleQuery db (enabledMatch u)).isSome = true
    rw [singleQuery_of_filter hfil]
    rfl

/-- Claim C9 witness: at the concrete one-row database the status
answer is 200 and connected is equivalent to the existence of the
enabled row. -/
theorem status_connected_iff_witness :
    uniqKeys dbW ∧
    (statusHandler dbW "u1").1 = 200 ∧
    ((statusHandler dbW "u1").2 = true ↔
      ∃ r ∈ dbW, matchesKey "u1" r = true ∧ r.enabled = true) :=
  ⟨by unfold uniqKeys dbW; simp,
   (status_connected_iff dbW "u1" (by unfold uniqKeys dbW; simp)).1,
   (status_connected_iff dbW "u1" (by unfold uniqKeys dbW; simp)).2⟩

end DarkKnight
